import Mathlib

/-!
Shallow embedding of the RoboPac faucet-bot core.

Sources embedded:
- src/unnamed/part_000 (package client): GetPeerInfo over the network-info
  response.
- src/discord/discord.go (package discord): Bot.validateInfo (the
  eligibility engine) and Bot.messageHandler (the dispatch layer).

External collaborators (Discord transport, gRPC node, wallet, the crypto
address parser, the libp2p peer-ID decoder) are modelled as per-request
oracles: an environment record holds the result each external call
returned for the request under consideration.  Every external call the
code makes is also recorded as an effect in an ordered trace, so that
"the engine never contacts X" is the absence of the corresponding effect.

The SafeStore (GetData and SetData) is code of this repository that is
not under src/ (only its callers are); it is modelled from the spec,
section 4.1, as an insert-if-absent keyed map.  See SafeStore.GetData and
SafeStore.SetData below.

Go machine integers: block heights are uint32, so the sync-lag
subtraction is modelled as subtraction modulo 2^32 (u32sub).  Monetary
amounts are float64 in Go and are used only for ordering comparisons and
for display; they are modelled as rationals.
-/

namespace RoboPac

/-! Client (src/unnamed/part_000) -/

namespace Client

/-- The fields of a pactus.PeerInfo gRPC message that GetPeerInfo reads:
the consensus-address list of a connected peer. -/
structure GrpcPeerInfo where
  ConsensusAddress : List String
deriving DecidableEq, Repr

/-- The field of the pactus.GetNetworkInfoResponse message that
GetPeerInfo reads. -/
structure GetNetworkInfoResponse where
  ConnectedPeers : List GrpcPeerInfo
deriving DecidableEq, Repr

/-- The nested loop body of Client.GetPeerInfo: scan the peer list and
return the first connected peer one of whose consensus addresses is
nonempty and equal to the given address; otherwise the Go code falls
through to the "peer does not exist" error. -/
def findPeer (address : String) : List GrpcPeerInfo → Except String GrpcPeerInfo
  | [] => Except.error "peer does not exist"
  | p :: rest =>
    if p.ConsensusAddress.any (fun addr => !(addr == "") && (addr == address)) then
      Except.ok p
    else
      findPeer address rest

/-- Client.GetPeerInfo (src/unnamed/part_000, lines 62-76).  The Go code
discards the error of c.GetNetworkInfo with a blank identifier; the
networkInfo argument here is the response of that call, none when the call
errored (nil response).  When the response is nil the loop is skipped and
the function returns the "peer does not exist" error. -/
def GetPeerInfo (networkInfo : Option GetNetworkInfoResponse) (address : String) :
    Except String GrpcPeerInfo :=
  match networkInfo with
  | some ni => findPeer address ni.ConnectedPeers
  | none => Except.error "peer does not exist"

end Client

/-! Data model shared by the discord package -/

/-- The record the Status Store keeps per peer identity.  Modelled from
the spec, section 3 (ClaimRecord): the SafeStore implementation is not
under src/.  The timestamp field plays no role in any embedded code path
and is omitted. -/
structure ClaimRecord where
  PeerID : String
  ValidatorAddress : String
  Username : String
  UserID : String
  Amount : Rat
deriving DecidableEq, Repr

/-- The Status Store state: an insertion-ordered key-value list from peer
identity to ClaimRecord. -/
def Store : Type := List (String × ClaimRecord)

instance : DecidableEq Store := by
  unfold Store
  infer_instance

/-- Keyed lookup in the store state. -/
def storeLookup : Store → String → Option ClaimRecord
  | [], _ => none
  | (k, r) :: rest, id => if k = id then some r else storeLookup rest id

namespace SafeStore

/-- Modelled from the spec: SafeStore.GetData (spec section 4.1), whose
implementation is not under src/.  A pure lookup returning the record and
an existence flag, with the flag true exactly when a record is present. -/
def GetData (store : Store) (peerID : String) : Option ClaimRecord × Bool :=
  (storeLookup store peerID, (storeLookup store peerID).isSome)

/-- Modelled from the spec: SafeStore.SetData (spec section 4.1), whose
implementation is not under src/.  Atomic insert-if-absent: fails when a
record for the key already exists; ioErr models any other storage
failure of the insert itself (spec section 4.4 step 9 allows the insert
to fail after a dispense). -/
def SetData (store : Store) (peerID validatorAddr username userID : String)
    (amount : Rat) (ioErr : Bool) : Except Unit Store :=
  if (storeLookup store peerID).isSome then Except.error ()
  else if ioErr then Except.error ()
  else Except.ok ((peerID, ⟨peerID, validatorAddr, username, userID, amount⟩) :: store)

end SafeStore

/-! Discord bot (src/discord/discord.go) -/

/-- The fields of the peer info returned by the client that validateInfo
reads: the raw peer-identity bytes and the sync height the peer reports
(uint32, kept as a Nat denoting its value). -/
structure PeerInfo where
  PeerId : List Nat
  Height : Nat
deriving DecidableEq, Repr

/-- Subtraction of uint32 values in Go: wraps modulo 2^32. -/
def u32sub (a b : Nat) : Nat :=
  (4294967296 + a % 4294967296 - b % 4294967296) % 4294967296

/-- Effects: the external calls made while handling one request, in
order.  newClient is the node-connection attempt; getPeerInfo, getHeight
and getBalance are node or wallet queries; storeGet is the Status Store
read; bond is the bonded-transfer submission; setDataOk is a successful
ClaimRecord insert; send is a user-facing reply message. -/
inductive Eff where
  | newClient
  | getPeerInfo
  | storeGet
  | getHeight
  | getBalance
  | bond (pubKey : String) (address : String) (amount : Rat)
  | setDataOk (peerID : String)
  | send (msg : String)
deriving DecidableEq, Repr

deriving instance DecidableEq for Except

/-- Per-request oracle results for the external calls validateInfo makes:
addrParseOk is whether crypto.AddressFromString succeeded; clientOk is
whether client.NewClient succeeded; peerRes is the client.GetPeerInfo
result, a peer info together with the returned public key (none models a
nil public key); idFromBytes is the peer.IDFromBytes result on the peer
identity bytes; heightRes is the client.GetBlockchainHeight result. -/
structure VEnv where
  addrParseOk : Bool
  clientOk : Bool
  peerRes : Except Unit (PeerInfo × Option String)
  idFromBytes : Option String
  heightRes : Except Unit Nat
deriving DecidableEq, Repr

def msgInvalidAddress : String :=
  "Pactus Universal Robot is unable to handle your request. If you are requesting testing faucet, supply the valid address."

def msgNodeUnreachable : String :=
  "The bot cannot establish connection to the blochain network. Try again later."

def msgPeerInfoUnavailable : String :=
  "Your node information could not obtained. Make sure your node is fully synced before requesting the faucet."

def msgAlreadyClaimed (validatorAddress : String) : String :=
  "Sorry. You already received faucet using this address: " ++ validatorAddress

def msgNotSynced (lag : Nat) : String :=
  "Your node is not fully synchronised. It is is behind by " ++ toString lag ++
    " blocks. Make sure that your node is fully synchronised before requesting faucet."

def msgInsufficientBalance : String :=
  "Insuffcient faucet balance. Try again later."

def msgHelp : String :=
  "You can request the faucet by sending your wallet address, e.g tpc1pxl333elgnrdtk0kjpjdvky44yu62x0cwupnpjl"

/-- Bot.validateInfo (src/discord/discord.go, lines 117-161).  Returns
the Go quadruple (peerID, pubKey, isValid, message), or none when the Go
code would dereference a nil pointer (v.ValidatorAddress with v nil),
together with the trace of external calls made.  getData is the Status
Store read b.store.GetData keyed by the derived peer identity; it is a
parameter so that the store contract can be instantiated or left
arbitrary. -/
def validateInfo (address : String) (env : VEnv)
    (getData : String → Option ClaimRecord × Bool) :
    Option (String × String × Bool × String) × List Eff :=
  if env.addrParseOk = false then
    (some ("", "", false, msgInvalidAddress), [])
  else if env.clientOk = false then
    (some ("", "", false, msgNodeUnreachable), [Eff.newClient])
  else
    match env.peerRes with
    | Except.error _ =>
      (some ("", "", false, msgPeerInfoUnavailable), [Eff.newClient, Eff.getPeerInfo])
    | Except.ok (peerInfo, pub) =>
      match pub with
      | none =>
        (some ("", "", false, msgPeerInfoUnavailable), [Eff.newClient, Eff.getPeerInfo])
      | some pubStr =>
        match env.idFromBytes with
        | none =>
          (some ("", "", false, msgPeerInfoUnavailable), [Eff.newClient, Eff.getPeerInfo])
        | some peerID =>
          if peerID = "" then
            (some ("", "", false, msgPeerInfoUnavailable), [Eff.newClient, Eff.getPeerInfo])
          else
            match getData peerID with
            | (v, exist) =>
              if exist || v.isSome then
                match v with
                | some r =>
                  (some ("", "", false, msgAlreadyClaimed r.ValidatorAddress),
                    [Eff.newClient, Eff.getPeerInfo, Eff.storeGet])
                | none =>
                  (none, [Eff.newClient, Eff.getPeerInfo, Eff.storeGet])
              else
                match env.heightRes with
                | Except.error _ =>
                  (some ("", "", false, msgNodeUnreachable),
                    [Eff.newClient, Eff.getPeerInfo, Eff.storeGet, Eff.getHeight])
                | Except.ok height =>
                  if 1080 < u32sub height peerInfo.Height then
                    (some ("", "", false, msgNotSynced (u32sub height peerInfo.Height)),
                      [Eff.newClient, Eff.getPeerInfo, Eff.storeGet, Eff.getHeight])
                  else
                    (some (peerID, pubStr, true, ""),
                      [Eff.newClient, Eff.getPeerInfo, Eff.storeGet, Eff.getHeight])

/-- Go strings.Trim(s, " "): drop the leading and trailing run of space
characters. -/
def trimSpaces (s : String) : String :=
  String.mk (((s.data.dropWhile (fun c => c = ' ')).reverse.dropWhile (fun c => c = ' ')).reverse)

/-- Zero-pad a natural number to six decimal digits. -/
def pad6 (n : Nat) : String :=
  let s := toString n
  String.mk (List.replicate (6 - s.length) '0') ++ s

/-- Display model for the Go fmt verb used on float64 amounts (percent
dot-six f): the amount printed with six digits after the decimal point.
The claims depend only on the literal text surrounding the amount, never
on its digits. -/
def fmtF6 (q : Rat) : String :=
  let scaled : Int := Int.fdiv (q.num * 1000000) (q.den : Int)
  if scaled < 0 then
    "-" ++ toString (scaled.natAbs / 1000000) ++ "." ++ pad6 (scaled.natAbs % 1000000)
  else
    toString (scaled.natAbs / 1000000) ++ "." ++ pad6 (scaled.natAbs % 1000000)

def msgSuccess (amount : Rat) : String :=
  "Faucet ( " ++ fmtF6 amount ++ " PAC) is staked on node successfully!"

def msgFaucetAddress (addr : String) : String :=
  "Faucet address is: " ++ addr

def msgBalance (available : Rat) : String :=
  "Available faucet balance is " ++ fmtF6 available ++ " PAC"

/-- Per-request oracle results and inputs for Bot.messageHandler:
content is the inbound message text; authorIsBot is whether the author
equals the bot user; networkInfoMsg is the composite output of
Bot.networkInfo (node statistics, external calls only — no claim touches
its internals); faucetAddress and faucetAmount come from the config;
balanceAvailable is the wallet GetBalance result; bondTxHash is the
wallet BondTransaction result (empty string is the failure sentinel);
setDataIOErr is whether the Status Store insert fails for a storage
reason. -/
structure MEnv where
  content : String
  authorIsBot : Bool
  authorUsername : String
  authorID : String
  networkInfoMsg : String
  faucetAddress : String
  faucetAmount : Rat
  balanceAvailable : Rat
  venv : VEnv
  bondTxHash : String
  setDataIOErr : Bool
deriving DecidableEq, Repr

/-- Bot.messageHandler (src/discord/discord.go, lines 55-115).  Returns
the store after the request and the trace of effects (node, wallet and
store calls, and every ChannelMessageSend as a send effect), or none when
the Go code would panic (propagated from validateInfo).  Note that in the
Go code a dispense whose transaction hash is empty, and a valid result
with an empty public key, fall through the end of the handler without
sending any reply. -/
def messageHandler (env : MEnv) (store : Store) : Option (Store × List Eff) :=
  if env.authorIsBot then some (store, [])
  else if env.content = "help" then some (store, [Eff.send msgHelp])
  else if env.content = "network" then some (store, [Eff.send env.networkInfoMsg])
  else if env.content = "address" then
    some (store, [Eff.send (msgFaucetAddress env.faucetAddress)])
  else if env.content = "balance" then
    some (store, [Eff.getBalance, Eff.send (msgBalance env.balanceAvailable)])
  else
    let trimmedAddress := trimSpaces env.content
    match validateInfo trimmedAddress env.venv (SafeStore.GetData store) with
    | (ret, vEffs) =>
      match ret with
      | none => none
      | some (peerID, pubKey, isValid, msg) =>
        if isValid = false then
          some (store, vEffs ++ [Eff.send msg])
        else if pubKey ≠ "" then
          if env.balanceAvailable < env.faucetAmount then
            some (store, vEffs ++ [Eff.getBalance, Eff.send msgInsufficientBalance])
          else
            if env.bondTxHash ≠ "" then
              match SafeStore.SetData store peerID trimmedAddress env.authorUsername
                  env.authorID env.faucetAmount env.setDataIOErr with
              | Except.ok store2 =>
                some (store2, vEffs ++ [Eff.getBalance,
                  Eff.bond pubKey trimmedAddress env.faucetAmount,
                  Eff.setDataOk peerID, Eff.send (msgSuccess env.faucetAmount)])
              | Except.error _ =>
                some (store, vEffs ++ [Eff.getBalance,
                  Eff.bond pubKey trimmedAddress env.faucetAmount,
                  Eff.send (msgSuccess env.faucetAmount)])
            else
              some (store, vEffs ++ [Eff.getBalance,
                Eff.bond pubKey trimmedAddress env.faucetAmount])
        else
          some (store, vEffs)

/-- Sequential processing of a list of inbound messages from an initial
store state, collecting the concatenated effect trace; a panic aborts the
run. -/
def run (store : Store) : List MEnv → Store × List Eff
  | [] => (store, [])
  | env :: rest =>
    match messageHandler env store with
    | none => (store, [])
    | some (store2, effs) =>
      let r := run store2 rest
      (r.1, effs ++ r.2)

/-- Whether an effect is a successful ClaimRecord insert for peer
identity P. -/
def isInsertEff (P : String) : Eff → Bool
  | Eff.setDataOk q => q = P
  | _ => false

/-- Whether an effect is a user-facing reply. -/
def isSendEff : Eff → Bool
  | Eff.send _ => true
  | _ => false

/-- Whether an effect is a bonded-transfer submission. -/
def isBondEff : Eff → Bool
  | Eff.bond _ _ _ => true
  | _ => false

/-- The number of successful ClaimRecord inserts for peer identity P in a
trace. -/
def countInserts (P : String) (effs : List Eff) : Nat :=
  (effs.filter (isInsertEff P)).length

/-! Helper lemmas -/

lemma u32sub_of_le (a b : Nat) (ha : a < 4294967296) (hb : b < 4294967296) (h : b ≤ a) :
    u32sub a b = a - b := by
  unfold u32sub
  omega

lemma u32sub_of_gt (a b : Nat) (ha : a < 4294967296) (hb : b < 4294967296) (h : a < b) :
    u32sub a b = 4294967296 - (b - a) := by
  unfold u32sub
  omega

/-- The fully-valid path of validateInfo: every gate passes, so the Go
quadruple has isValid true and the trace holds the four external calls in
order. -/
lemma validateInfo_valid (address : String) (env : VEnv)
    (getData : String → Option ClaimRecord × Bool) (pi : PeerInfo) (pubS pid : String)
    (height : Nat)
    (hA : env.addrParseOk = true) (hC : env.clientOk = true)
    (hP : env.peerRes = Except.ok (pi, some pubS))
    (hI : env.idFromBytes = some pid) (hpid : pid ≠ "")
    (hgd : getData pid = (none, false))
    (hH : env.heightRes = Except.ok height)
    (hlag : u32sub height pi.Height ≤ 1080) :
    validateInfo address env getData =
      (some (pid, pubS, true, ""),
        [Eff.newClient, Eff.getPeerInfo, Eff.storeGet, Eff.getHeight]) := by
  have hnl : ¬ (1080 < u32sub height pi.Height) := Nat.not_lt.mpr hlag
  simp [validateInfo, hA, hC, hP, hI, hpid, hgd, hH, hnl]

/-- The duplicate-claim branch of validateInfo with a non-nil stored
record: rejected with the already-claimed message, whatever the
existence flag. -/
lemma validateInfo_alreadyClaimed (address : String) (env : VEnv)
    (getData : String → Option ClaimRecord × Bool) (pi : PeerInfo) (pubS pid : String)
    (r : ClaimRecord) (b : Bool)
    (hA : env.addrParseOk = true) (hC : env.clientOk = true)
    (hP : env.peerRes = Except.ok (pi, some pubS))
    (hI : env.idFromBytes = some pid) (hpid : pid ≠ "")
    (hgd : getData pid = (some r, b)) :
    validateInfo address env getData =
      (some ("", "", false, msgAlreadyClaimed r.ValidatorAddress),
        [Eff.newClient, Eff.getPeerInfo, Eff.storeGet]) := by
  simp [validateInfo, hA, hC, hP, hI, hpid, hgd]

/-! Claims about validateInfo -/

/-- C2: for every input address string that fails chain-address syntax
validation, validateInfo returns the InvalidAddress rejection and its
effect trace is empty — no node connection, no node query, no Status
Store access. -/
theorem C2_invalid_address_no_external_calls (address : String) (env : VEnv)
    (getData : String → Option ClaimRecord × Bool)
    (h : env.addrParseOk = false) :
    validateInfo address env getData = (some ("", "", false, msgInvalidAddress), []) := by
  simp [validateInfo, h]

/-- Witness for C2: a concrete environment whose address fails parsing. -/
theorem C2_invalid_address_no_external_calls_witness :
    (VEnv.mk false true (Except.error ()) none (Except.error ())).addrParseOk = false ∧
    validateInfo "bad input" (VEnv.mk false true (Except.error ()) none (Except.error ()))
      (fun _ => (none, false)) = (some ("", "", false, msgInvalidAddress), []) :=
  ⟨rfl, C2_invalid_address_no_external_calls "bad input"
    (VEnv.mk false true (Except.error ()) none (Except.error ())) (fun _ => (none, false)) rfl⟩

/-- C3: for every request that passes address validation, peer
resolution, identity derivation and the duplicate-claim check, if the
fetched chain height exceeds the reported peer sync height by more
than 1080, validateInfo rejects with the NotSynced message carrying the
exact numeric lag. -/
theorem C3_not_synced_exact_lag (address : String) (env : VEnv)
    (getData : String → Option ClaimRecord × Bool) (pi : PeerInfo) (pubS pid : String)
    (height : Nat)
    (hA : env.addrParseOk = true) (hC : env.clientOk = true)
    (hP : env.peerRes = Except.ok (pi, some pubS))
    (hI : env.idFromBytes = some pid) (hpid : pid ≠ "")
    (hgd : getData pid = (none, false))
    (hH : env.heightRes = Except.ok height)
    (h32a : height < 4294967296) (h32b : pi.Height < 4294967296)
    (hlag : (1080 : Int) < (height : Int) - (pi.Height : Int)) :
    (validateInfo address env getData).1 =
      some ("", "", false,
        "Your node is not fully synchronised. It is is behind by " ++
          toString (height - pi.Height) ++
          " blocks. Make sure that your node is fully synchronised before requesting faucet.") := by
  have hle : pi.Height ≤ height := by omega
  have hsub : u32sub height pi.Height = height - pi.Height :=
    u32sub_of_le height pi.Height h32a h32b hle
  have hgt : 1080 < height - pi.Height := by omega
  simp [validateInfo, hA, hC, hP, hI, hpid, hgd, hH, hgt, msgNotSynced, hsub]

/-- Concrete environment for the sync-lag witnesses: peer height 100,
chain height 2000, lag 1900. -/
def venvLag : VEnv :=
  ⟨true, true, Except.ok (⟨[1], 100⟩, some "pub1"), some "p1", Except.ok 2000⟩

/-- Witness for C3: chain height 2000, peer height 100, lag 1900. -/
theorem C3_not_synced_exact_lag_witness :
    venvLag.addrParseOk = true ∧ venvLag.clientOk = true ∧
    venvLag.peerRes = Except.ok (⟨[1], 100⟩, some "pub1") ∧
    venvLag.idFromBytes = some "p1" ∧ ("p1" : String) ≠ "" ∧
    (fun _ : String => ((none : Option ClaimRecord), false)) "p1" = (none, false) ∧
    venvLag.heightRes = Except.ok 2000 ∧
    2000 < 4294967296 ∧ 100 < 4294967296 ∧
    (1080 : Int) < (2000 : Int) - (100 : Int) ∧
    (validateInfo "tpc1addr" venvLag (fun _ => (none, false))).1 =
      some ("", "", false,
        "Your node is not fully synchronised. It is is behind by " ++
          toString (2000 - 100) ++
          " blocks. Make sure that your node is fully synchronised before requesting faucet.") :=
  ⟨rfl, rfl, rfl, rfl, by decide, rfl, rfl, by decide, by decide, by decide,
    C3_not_synced_exact_lag "tpc1addr" venvLag (fun _ => (none, false))
      ⟨[1], 100⟩ "pub1" "p1" 2000 rfl rfl rfl rfl (by decide) rfl rfl
      (by decide) (by decide) (by decide)⟩

/-- C8: when the derived peer identity has a stored ClaimRecord, the
AlreadyClaimed rejection echoes the validator address kept in that
record, independent of the submitted address. -/
theorem C8_already_claimed_echoes_stored_address (address : String) (env : VEnv)
    (store : Store) (pi : PeerInfo) (pubS pid : String) (r : ClaimRecord)
    (hA : env.addrParseOk = true) (hC : env.clientOk = true)
    (hP : env.peerRes = Except.ok (pi, some pubS))
    (hI : env.idFromBytes = some pid) (hpid : pid ≠ "")
    (hS : storeLookup store pid = some r) :
    (validateInfo address env (SafeStore.GetData store)).1 =
      some ("", "", false,
        "Sorry. You already received faucet using this address: " ++ r.ValidatorAddress) := by
  have hgd : SafeStore.GetData store pid = (some r, true) := by
    simp [SafeStore.GetData, hS]
  have h := validateInfo_alreadyClaimed address env (SafeStore.GetData store)
    pi pubS pid r true hA hC hP hI hpid hgd
  rw [h]
  simp [msgAlreadyClaimed]

/-- Concrete prior record and store for the duplicate-claim witnesses. -/
def recOld : ClaimRecord := ⟨"p1", "tpc1old", "alice", "42", 1⟩

/-- Concrete environment resolving to peer identity p1 with a small lag. -/
def venvOk : VEnv :=
  ⟨true, true, Except.ok (⟨[1], 100⟩, some "pub1"), some "p1", Except.ok 105⟩

/-- Witness for C8: the request submits address tpc1new, the stored
record holds tpc1old, and the reply echoes tpc1old. -/
theorem C8_already_claimed_echoes_stored_address_witness :
    venvOk.addrParseOk = true ∧ venvOk.clientOk = true ∧
    venvOk.peerRes = Except.ok (⟨[1], 100⟩, some "pub1") ∧
    venvOk.idFromBytes = some "p1" ∧ ("p1" : String) ≠ "" ∧
    storeLookup [("p1", recOld)] "p1" = some recOld ∧
    (validateInfo "tpc1new" venvOk (SafeStore.GetData [("p1", recOld)])).1 =
      some ("", "", false,
        "Sorry. You already received faucet using this address: " ++ recOld.ValidatorAddress) :=
  ⟨rfl, rfl, rfl, rfl, by decide, by decide,
    C8_already_claimed_echoes_stored_address "tpc1new" venvOk [("p1", recOld)]
      ⟨[1], 100⟩ "pub1" "p1" recOld rfl rfl rfl rfl (by decide) (by decide)⟩

/-- C9: the sync-lag subtraction wraps modulo 2^32: when the peer
reports a height strictly above the fetched chain height (by less than
2^32 minus 1081), the wrapped difference exceeds 1080 and the request is
rejected as NotSynced with that huge wrapped lag in the message. -/
theorem C9_peer_ahead_wrapped_lag (address : String) (env : VEnv)
    (getData : String → Option ClaimRecord × Bool) (pi : PeerInfo) (pubS pid : String)
    (height : Nat)
    (hA : env.addrParseOk = true) (hC : env.clientOk = true)
    (hP : env.peerRes = Except.ok (pi, some pubS))
    (hI : env.idFromBytes = some pid) (hpid : pid ≠ "")
    (hgd : getData pid = (none, false))
    (hH : env.heightRes = Except.ok height)
    (h32a : height < 4294967296) (h32b : pi.Height < 4294967296)
    (hgt : height < pi.Height)
    (hd : pi.Height - height < 4294967296 - 1081) :
    u32sub height pi.Height = 4294967296 - (pi.Height - height) ∧
    1080 < u32sub height pi.Height ∧
    (validateInfo address env getData).1 =
      some ("", "", false,
        "Your node is not fully synchronised. It is is behind by " ++
          toString (u32sub height pi.Height) ++
          " blocks. Make sure that your node is fully synchronised before requesting faucet.") := by
  have hsub : u32sub height pi.Height = 4294967296 - (pi.Height - height) :=
    u32sub_of_gt height pi.Height h32a h32b hgt
  have hbig : 1080 < u32sub height pi.Height := by
    rw [hsub]
    omega
  refine ⟨hsub, hbig, ?_⟩
  simp [validateInfo, hA, hC, hP, hI, hpid, hgd, hH, hbig, msgNotSynced]

/-- Concrete environment for C9: chain height 5, peer height 10. -/
def venvAhead : VEnv :=
  ⟨true, true, Except.ok (⟨[1], 10⟩, some "pub1"), some "p1", Except.ok 5⟩

/-- Witness for C9: peer ahead by 5 blocks, wrapped lag 4294967291. -/
theorem C9_peer_ahead_wrapped_lag_witness :
    venvAhead.addrParseOk = true ∧ venvAhead.clientOk = true ∧
    venvAhead.peerRes = Except.ok (⟨[1], 10⟩, some "pub1") ∧
    venvAhead.idFromBytes = some "p1" ∧ ("p1" : String) ≠ "" ∧
    (fun _ : String => ((none : Option ClaimRecord), false)) "p1" = (none, false) ∧
    venvAhead.heightRes = Except.ok 5 ∧
    5 < 4294967296 ∧ 10 < 4294967296 ∧ 5 < 10 ∧ 10 - 5 < 4294967296 - 1081 ∧
    (u32sub 5 10 = 4294967296 - (10 - 5) ∧
     1080 < u32sub 5 10 ∧
     (validateInfo "tpc1addr" venvAhead (fun _ => (none, false))).1 =
       some ("", "", false,
         "Your node is not fully synchronised. It is is behind by " ++
           toString (u32sub 5 10) ++
           " blocks. Make sure that your node is fully synchronised before requesting faucet.")) :=
  ⟨rfl, rfl, rfl, rfl, by decide, rfl, rfl, by decide, by decide, by decide, by decide,
    C9_peer_ahead_wrapped_lag "tpc1addr" venvAhead (fun _ => (none, false))
      ⟨[1], 10⟩ "pub1" "p1" 5 rfl rfl rfl rfl (by decide) rfl rfl
      (by decide) (by decide) (by decide) (by decide)⟩

/-- C10: the duplicate-claim branch is taken whenever the existence flag
is true or the returned record is non-nil (either alone suffices), and
building the AlreadyClaimed message dereferences the record: a non-nil
record rejects with the message even with the flag false; a nil record
with the flag true drives the code into a nil dereference (result none);
and under the precondition that GetData never pairs a nil record with a
true flag, validateInfo never reaches the nil dereference. -/
theorem C10_duplicate_branch_nil_safety :
    (∀ (address : String) (env : VEnv) (getData : String → Option ClaimRecord × Bool)
        (pi : PeerInfo) (pubS pid : String) (r : ClaimRecord) (b : Bool),
      env.addrParseOk = true → env.clientOk = true →
      env.peerRes = Except.ok (pi, some pubS) →
      env.idFromBytes = some pid → pid ≠ "" →
      getData pid = (some r, b) →
      (validateInfo address env getData).1 =
        some ("", "", false, msgAlreadyClaimed r.ValidatorAddress)) ∧
    (∀ (address : String) (env : VEnv) (getData : String → Option ClaimRecord × Bool)
        (pi : PeerInfo) (pubS pid : String),
      env.addrParseOk = true → env.clientOk = true →
      env.peerRes = Except.ok (pi, some pubS) →
      env.idFromBytes = some pid → pid ≠ "" →
      getData pid = (none, true) →
      (validateInfo address env getData).1 = none) ∧
    (∀ (address : String) (env : VEnv) (getData : String → Option ClaimRecord × Bool),
      (∀ id v, getData id = (v, true) → v.isSome = true) →
      (validateInfo address env getData).1 ≠ none) := by
  refine ⟨?_, ?_, ?_⟩
  · intro address env getData pi pubS pid r b hA hC hP hI hpid hgd
    rw [validateInfo_alreadyClaimed address env getData pi pubS pid r b hA hC hP hI hpid hgd]
  · intro address env getData pi pubS pid hA hC hP hI hpid hgd
    simp [validateInfo, hA, hC, hP, hI, hpid, hgd]
  · intro address env getData hpre hnone
    rw [validateInfo] at hnone
    repeat' split at hnone
    all_goals simp_all
    all_goals
      rename_i heq hex
      have hcontra := hpre _ _ heq
      simp at hcontra

/-- Witness for C10: all three parts at concrete stores and records. -/
theorem C10_duplicate_branch_nil_safety_witness :
    (validateInfo "tpc1new" venvOk (fun _ => (some recOld, false))).1 =
      some ("", "", false, msgAlreadyClaimed recOld.ValidatorAddress) ∧
    (validateInfo "tpc1new" venvOk (fun _ => (none, true))).1 = none ∧
    (validateInfo "tpc1new" venvOk (fun _ => (some recOld, true))).1 ≠ none :=
  ⟨C10_duplicate_branch_nil_safety.1 "tpc1new" venvOk (fun _ => (some recOld, false))
      ⟨[1], 100⟩ "pub1" "p1" recOld false rfl rfl rfl rfl (by decide) rfl,
   C10_duplicate_branch_nil_safety.2.1 "tpc1new" venvOk (fun _ => (none, true))
      ⟨[1], 100⟩ "pub1" "p1" rfl rfl rfl rfl (by decide) rfl,
   C10_duplicate_branch_nil_safety.2.2 "tpc1new" venvOk (fun _ => (some recOld, true))
      (fun id v h => by injection h with h1 h2; rw [← h1]; rfl)⟩

/-! Claims about the client GetPeerInfo -/

/-- findPeer finds some peer whose consensus-address list contains a
given nonempty address whenever one of the scanned peers contains it. -/
lemma findPeer_found (address : String) (hne : address ≠ "") :
    ∀ peers : List Client.GrpcPeerInfo,
      (∃ p, p ∈ peers ∧ address ∈ p.ConsensusAddress) →
      ∃ q, Client.findPeer address peers = Except.ok q ∧ address ∈ q.ConsensusAddress := by
  intro peers
  induction peers with
  | nil =>
    rintro ⟨p, hp, _⟩
    cases hp
  | cons p rest ih =>
    rintro ⟨q, hq, hmem⟩
    by_cases hp : (p.ConsensusAddress.any fun addr => !(addr == "") && (addr == address)) = true
    · refine ⟨p, ?_, ?_⟩
      · simp [Client.findPeer, hp]
      · rcases List.any_eq_true.mp hp with ⟨a, ha, hcond⟩
        have haddr : a = address := by
          have h2 := hcond
          simp at h2
          exact h2.2
        rw [← haddr]
        exact ha
    · have hstep : Client.findPeer address (p :: rest) = Client.findPeer address rest := by
        simp [Client.findPeer, hp]
      rw [hstep]
      apply ih
      rcases List.mem_cons.mp hq with rfl | hq2
      · exfalso
        apply hp
        exact List.any_eq_true.mpr ⟨address, hmem, by simp [hne]⟩
      · exact ⟨q, hq2, hmem⟩

/-- findPeer falls through to the "peer does not exist" error when no
scanned peer has the address in its consensus-address list. -/
lemma findPeer_not_found (address : String) :
    ∀ peers : List Client.GrpcPeerInfo,
      (∀ p, p ∈ peers → address ∉ p.ConsensusAddress) →
      Client.findPeer address peers = Except.error "peer does not exist" := by
  intro peers
  induction peers with
  | nil => intro; rfl
  | cons p rest ih =>
    intro h
    have hp : (p.ConsensusAddress.any fun addr => !(addr == "") && (addr == address)) = false := by
      rw [List.any_eq_false]
      intro a ha hcond
      have haddr : a = address := by
        have h2 := hcond
        simp at h2
        exact h2.2
      exact h p (List.mem_cons_self p rest) (haddr ▸ ha)
    rw [Client.findPeer, hp]
    simp only [Bool.false_eq_true, if_false]
    exact ih fun q hq => h q (List.mem_cons_of_mem p hq)

/-- C6 counterexample: when the network-info call errors (nil response,
error discarded by the blank identifier), GetPeerInfo fails with the
PeerNotFound error "peer does not exist", not a connection error; and a
peer whose address list contains the (empty) searched address is not
returned either. -/
theorem C6_counterexample :
    Client.GetPeerInfo none "tpc1abc" = Except.error "peer does not exist" ∧
    Client.GetPeerInfo (some ⟨[⟨[""]⟩]⟩) "" = Except.error "peer does not exist" ∧
    "" ∈ (Client.GrpcPeerInfo.mk [""]).ConsensusAddress := by
  refine ⟨rfl, rfl, ?_⟩
  simp

/-- C6 amended: GetPeerInfo returns a connected peer whose
consensus-address set contains the given nonempty address when one
exists; it fails with the PeerNotFound error both when the network info
was obtained and no connected peer has the address in its set, and when
the underlying network-info call itself errors — the error is discarded,
so the failure is PeerNotFound, never a distinct connection error. -/
theorem C6_get_peer_info_resolution :
    (∀ (ni : Client.GetNetworkInfoResponse) (address : String),
      address ≠ "" →
      (∃ p, p ∈ ni.ConnectedPeers ∧ address ∈ p.ConsensusAddress) →
      ∃ q, Client.GetPeerInfo (some ni) address = Except.ok q ∧
        address ∈ q.ConsensusAddress) ∧
    (∀ (ni : Client.GetNetworkInfoResponse) (address : String),
      (∀ p, p ∈ ni.ConnectedPeers → address ∉ p.ConsensusAddress) →
      Client.GetPeerInfo (some ni) address = Except.error "peer does not exist") ∧
    (∀ address : String,
      Client.GetPeerInfo none address = Except.error "peer does not exist") := by
  refine ⟨?_, ?_, ?_⟩
  · intro ni address hne hex
    exact findPeer_found address hne ni.ConnectedPeers hex
  · intro ni address h
    exact findPeer_not_found address ni.ConnectedPeers h
  · intro address
    rfl

/-- Witness for C6 amended: a two-peer list where the second peer holds
the searched address, an empty search, and an errored network call. -/
theorem C6_get_peer_info_resolution_witness :
    (("tpc1a" : String) ≠ "" ∧
      (∃ p, p ∈ [Client.GrpcPeerInfo.mk ["x"], Client.GrpcPeerInfo.mk ["", "tpc1a"]] ∧
        ("tpc1a" : String) ∈ p.ConsensusAddress) ∧
      ∃ q, Client.GetPeerInfo (some ⟨[⟨["x"]⟩, ⟨["", "tpc1a"]⟩]⟩) "tpc1a" = Except.ok q ∧
        ("tpc1a" : String) ∈ q.ConsensusAddress) ∧
    Client.GetPeerInfo (some ⟨[⟨["x"]⟩]⟩) "tpc1b" = Except.error "peer does not exist" ∧
    Client.GetPeerInfo none "tpc1c" = Except.error "peer does not exist" :=
  ⟨⟨by decide, ⟨⟨["", "tpc1a"]⟩, by simp⟩,
    C6_get_peer_info_resolution.1 ⟨[⟨["x"]⟩, ⟨["", "tpc1a"]⟩]⟩ "tpc1a" (by decide)
      ⟨⟨["", "tpc1a"]⟩, by simp⟩⟩,
   C6_get_peer_info_resolution.2.1 ⟨[⟨["x"]⟩]⟩ "tpc1b" (by decide),
   C6_get_peer_info_resolution.2.2 "tpc1c"⟩

/-! Claims about messageHandler -/

lemma countInserts_append (P : String) (a b : List Eff) :
    countInserts P (a ++ b) = countInserts P a + countInserts P b := by
  simp [countInserts, List.filter_append]

/-- validateInfo performs no store insert: its trace never contains a
setDataOk effect. -/
lemma validateInfo_no_insert (address : String) (env : VEnv)
    (getData : String → Option ClaimRecord × Bool) (P : String) :
    countInserts P (validateInfo address env getData).2 = 0 := by
  rw [validateInfo]
  repeat' split
  all_goals simp [countInserts, isInsertEff]

/-- C4: when the faucet wallet balance is below the configured amount,
the handler replies with the InsufficientFaucetBalance message, submits
no bonded transfer, writes no ClaimRecord, and leaves the store
unchanged. -/
theorem C4_insufficient_balance_no_transfer (env : MEnv) (store : Store)
    (pi : PeerInfo) (pubS pid : String) (height : Nat)
    (hbot : env.authorIsBot = false)
    (h1 : env.content ≠ "help") (h2 : env.content ≠ "network")
    (h3 : env.content ≠ "address") (h4 : env.content ≠ "balance")
    (hA : env.venv.addrParseOk = true) (hC : env.venv.clientOk = true)
    (hP : env.venv.peerRes = Except.ok (pi, some pubS)) (hpub : pubS ≠ "")
    (hI : env.venv.idFromBytes = some pid) (hpid : pid ≠ "")
    (hS : storeLookup store pid = none)
    (hH : env.venv.heightRes = Except.ok height)
    (hlag : u32sub height pi.Height ≤ 1080)
    (hbal : env.balanceAvailable < env.faucetAmount) :
    messageHandler env store = some (store,
      [Eff.newClient, Eff.getPeerInfo, Eff.storeGet, Eff.getHeight,
        Eff.getBalance, Eff.send msgInsufficientBalance]) ∧
    (∀ e ∈ [Eff.newClient, Eff.getPeerInfo, Eff.storeGet, Eff.getHeight,
        Eff.getBalance, Eff.send msgInsufficientBalance], isBondEff e = false) ∧
    (∀ P, countInserts P [Eff.newClient, Eff.getPeerInfo, Eff.storeGet, Eff.getHeight,
        Eff.getBalance, Eff.send msgInsufficientBalance] = 0) := by
  have hgd : SafeStore.GetData store pid = (none, false) := by
    simp [SafeStore.GetData, hS]
  have hv := validateInfo_valid (trimSpaces env.content) env.venv (SafeStore.GetData store)
    pi pubS pid height hA hC hP hI hpid hgd hH hlag
  refine ⟨?_, by decide, ?_⟩
  · simp [messageHandler, hbot, h1, h2, h3, h4, hv, hpub, hbal]
  · intro P
    simp [countInserts, isInsertEff]

/-- Concrete dispatch environment reaching the balance check: valid
address text, peer resolved, identity p1, lag 5, faucet amount 1. -/
def cenvBase : MEnv :=
  ⟨"tpc1xyz", false, "alice", "42", "netinfo", "tpc1faucet", 1, 5, venvOk, "txh", false⟩

/-- Witness for C4: balance 0 against configured amount 1. -/
theorem C4_insufficient_balance_no_transfer_witness :
    ({ cenvBase with balanceAvailable := 0 } : MEnv).authorIsBot = false ∧
    ({ cenvBase with balanceAvailable := 0 } : MEnv).content ≠ "help" ∧
    ({ cenvBase with balanceAvailable := 0 } : MEnv).content ≠ "network" ∧
    ({ cenvBase with balanceAvailable := 0 } : MEnv).content ≠ "address" ∧
    ({ cenvBase with balanceAvailable := 0 } : MEnv).content ≠ "balance" ∧
    storeLookup [] "p1" = none ∧
    u32sub 105 100 ≤ 1080 ∧
    ({ cenvBase with balanceAvailable := 0 } : MEnv).balanceAvailable <
      ({ cenvBase with balanceAvailable := 0 } : MEnv).faucetAmount ∧
    messageHandler { cenvBase with balanceAvailable := 0 } [] = some ([],
      [Eff.newClient, Eff.getPeerInfo, Eff.storeGet, Eff.getHeight,
        Eff.getBalance, Eff.send msgInsufficientBalance]) :=
  ⟨rfl, by decide, by decide, by decide, by decide, rfl, by decide, by decide,
    (C4_insufficient_balance_no_transfer { cenvBase with balanceAvailable := 0 } []
      ⟨[1], 100⟩ "pub1" "p1" 105 rfl (by decide) (by decide) (by decide) (by decide)
      rfl rfl rfl (by decide) rfl (by decide) rfl rfl (by decide) (by decide)).1⟩

/-- C5 counterexample: a request that passes every gate but whose bonded
transfer returns the empty transaction hash sentinel produces no
user-facing reply at all — the handler trace contains no send effect,
refuting the claim that a TransferFailed message is still sent. -/
theorem C5_counterexample :
    messageHandler { cenvBase with bondTxHash := "" } [] = some ([],
      [Eff.newClient, Eff.getPeerInfo, Eff.storeGet, Eff.getHeight,
        Eff.getBalance, Eff.bond "pub1" "tpc1xyz" 1]) ∧
    (∀ e ∈ [Eff.newClient, Eff.getPeerInfo, Eff.storeGet, Eff.getHeight,
        Eff.getBalance, Eff.bond "pub1" "tpc1xyz" 1], isSendEff e = false) := by
  refine ⟨by decide, by decide⟩

/-- C5 amended: every rejection from the eligibility engine is converted
into a user-facing reply (the handler returns normally and sends the
rejection message, leaving the store unchanged); but when the bonded
transfer fails (empty transaction hash sentinel) the handler returns
normally without sending any user-facing message and without writing a
ClaimRecord; the store is unchanged. -/
theorem C5_transfer_failure_sends_nothing :
    (∀ (env : MEnv) (store : Store) (peerID pubKey msg : String) (vEffs : List Eff),
      env.authorIsBot = false →
      env.content ≠ "help" → env.content ≠ "network" →
      env.content ≠ "address" → env.content ≠ "balance" →
      validateInfo (trimSpaces env.content) env.venv (SafeStore.GetData store) =
        (some (peerID, pubKey, false, msg), vEffs) →
      messageHandler env store = some (store, vEffs ++ [Eff.send msg])) ∧
    (∀ (env : MEnv) (store : Store) (pi : PeerInfo) (pubS pid : String) (height : Nat),
      env.authorIsBot = false →
      env.content ≠ "help" → env.content ≠ "network" →
      env.content ≠ "address" → env.content ≠ "balance" →
      env.venv.addrParseOk = true → env.venv.clientOk = true →
      env.venv.peerRes = Except.ok (pi, some pubS) → pubS ≠ "" →
      env.venv.idFromBytes = some pid → pid ≠ "" →
      storeLookup store pid = none →
      env.venv.heightRes = Except.ok height →
      u32sub height pi.Height ≤ 1080 →
      ¬ env.balanceAvailable < env.faucetAmount →
      env.bondTxHash = "" →
      messageHandler env store = some (store,
        [Eff.newClient, Eff.getPeerInfo, Eff.storeGet, Eff.getHeight, Eff.getBalance,
          Eff.bond pubS (trimSpaces env.content) env.faucetAmount]) ∧
      (∀ e ∈ [Eff.newClient, Eff.getPeerInfo, Eff.storeGet, Eff.getHeight, Eff.getBalance,
          Eff.bond pubS (trimSpaces env.content) env.faucetAmount], isSendEff e = false) ∧
      (∀ P, countInserts P [Eff.newClient, Eff.getPeerInfo, Eff.storeGet, Eff.getHeight,
          Eff.getBalance, Eff.bond pubS (trimSpaces env.content) env.faucetAmount] = 0)) := by
  constructor
  · intro env store peerID pubKey msg vEffs hbot h1 h2 h3 h4 hVI
    simp [messageHandler, hbot, h1, h2, h3, h4, hVI]
  · intro env store pi pubS pid height hbot h1 h2 h3 h4 hA hC hP hpub hI hpid hS hH hlag
      hbal htx
    have hgd : SafeStore.GetData store pid = (none, false) := by
      simp [SafeStore.GetData, hS]
    have hv := validateInfo_valid (trimSpaces env.content) env.venv (SafeStore.GetData store)
      pi pubS pid height hA hC hP hI hpid hgd hH hlag
    refine ⟨?_, ?_, ?_⟩
    · simp [messageHandler, hbot, h1, h2, h3, h4, hv, hpub, hbal, htx]
    · intro e he
      simp only [List.mem_cons, List.not_mem_nil, or_false] at he
      rcases he with rfl | rfl | rfl | rfl | rfl | rfl <;> rfl
    · intro P
      simp [countInserts, isInsertEff]

/-- Witness for C5 amended: a rejected request (malformed address) gets
the InvalidAddress reply sent, and the same concrete environment as the
counterexample with an empty transaction hash sends nothing. -/
theorem C5_transfer_failure_sends_nothing_witness :
    (validateInfo (trimSpaces ({ cenvBase with
        venv := ⟨false, true, Except.error (), none, Except.error ()⟩ } : MEnv).content)
      ({ cenvBase with
        venv := ⟨false, true, Except.error (), none, Except.error ()⟩ } : MEnv).venv
      (SafeStore.GetData []) = (some ("", "", false, msgInvalidAddress), []) ∧
      messageHandler { cenvBase with
        venv := ⟨false, true, Except.error (), none, Except.error ()⟩ } [] =
        some ([], [] ++ [Eff.send msgInvalidAddress])) ∧
    (({ cenvBase with bondTxHash := "" } : MEnv).bondTxHash = "" ∧
      ¬ ({ cenvBase with bondTxHash := "" } : MEnv).balanceAvailable <
          ({ cenvBase with bondTxHash := "" } : MEnv).faucetAmount ∧
      messageHandler { cenvBase with bondTxHash := "" } [] = some ([],
        [Eff.newClient, Eff.getPeerInfo, Eff.storeGet, Eff.getHeight, Eff.getBalance,
          Eff.bond "pub1" (trimSpaces ({ cenvBase with bondTxHash := "" } : MEnv).content) 1])) :=
  ⟨⟨by decide,
    C5_transfer_failure_sends_nothing.1 { cenvBase with
        venv := ⟨false, true, Except.error (), none, Except.error ()⟩ } []
      "" "" msgInvalidAddress [] rfl (by decide) (by decide) (by decide) (by decide)
      (by decide)⟩,
   rfl, by decide,
    (C5_transfer_failure_sends_nothing.2 { cenvBase with bondTxHash := "" } []
      ⟨[1], 100⟩ "pub1" "p1" 105 rfl (by decide) (by decide) (by decide) (by decide)
      rfl rfl rfl (by decide) rfl (by decide) rfl rfl (by decide) (by decide) rfl).1⟩

/-- C7: when the ClaimRecord insert fails after a successful dispense
(non-empty transaction hash), the user still receives the success
message, exactly one bonded transfer was submitted (not reversed, not
retried), no ClaimRecord is recorded, and the store is unchanged. -/
theorem C7_store_write_failure_logged_only (env : MEnv) (store : Store)
    (pi : PeerInfo) (pubS pid : String) (height : Nat)
    (hbot : env.authorIsBot = false)
    (h1 : env.content ≠ "help") (h2 : env.content ≠ "network")
    (h3 : env.content ≠ "address") (h4 : env.content ≠ "balance")
    (hA : env.venv.addrParseOk = true) (hC : env.venv.clientOk = true)
    (hP : env.venv.peerRes = Except.ok (pi, some pubS)) (hpub : pubS ≠ "")
    (hI : env.venv.idFromBytes = some pid) (hpid : pid ≠ "")
    (hS : storeLookup store pid = none)
    (hH : env.venv.heightRes = Except.ok height)
    (hlag : u32sub height pi.Height ≤ 1080)
    (hbal : ¬ env.balanceAvailable < env.faucetAmount)
    (htx : env.bondTxHash ≠ "")
    (hio : env.setDataIOErr = true) :
    messageHandler env store = some (store,
      [Eff.newClient, Eff.getPeerInfo, Eff.storeGet, Eff.getHeight, Eff.getBalance,
        Eff.bond pubS (trimSpaces env.content) env.faucetAmount,
        Eff.send (msgSuccess env.faucetAmount)]) ∧
    (List.filter isBondEff
      [Eff.newClient, Eff.getPeerInfo, Eff.storeGet, Eff.getHeight, Eff.getBalance,
        Eff.bond pubS (trimSpaces env.content) env.faucetAmount,
        Eff.send (msgSuccess env.faucetAmount)]).length = 1 ∧
    (∀ P, countInserts P
      [Eff.newClient, Eff.getPeerInfo, Eff.storeGet, Eff.getHeight, Eff.getBalance,
        Eff.bond pubS (trimSpaces env.content) env.faucetAmount,
        Eff.send (msgSuccess env.faucetAmount)] = 0) ∧
    Eff.send (msgSuccess env.faucetAmount) ∈
      [Eff.newClient, Eff.getPeerInfo, Eff.storeGet, Eff.getHeight, Eff.getBalance,
        Eff.bond pubS (trimSpaces env.content) env.faucetAmount,
        Eff.send (msgSuccess env.faucetAmount)] := by
  have hgd : SafeStore.GetData store pid = (none, false) := by
    simp [SafeStore.GetData, hS]
  have hv := validateInfo_valid (trimSpaces env.content) env.venv (SafeStore.GetData store)
    pi pubS pid height hA hC hP hI hpid hgd hH hlag
  refine ⟨?_, ?_, ?_, ?_⟩
  · simp [messageHandler, hbot, h1, h2, h3, h4, hv, hpub, hbal, htx,
      SafeStore.SetData, hS, hio]
  · simp [isBondEff]
  · intro P
    simp [countInserts, isInsertEff]
  · simp

/-- Witness for C7: the concrete environment with a failing store
insert; the success message is still sent and the store stays empty. -/
theorem C7_store_write_failure_logged_only_witness :
    ({ cenvBase with setDataIOErr := true } : MEnv).setDataIOErr = true ∧
    ({ cenvBase with setDataIOErr := true } : MEnv).bondTxHash ≠ "" ∧
    messageHandler { cenvBase with setDataIOErr := true } [] = some ([],
      [Eff.newClient, Eff.getPeerInfo, Eff.storeGet, Eff.getHeight, Eff.getBalance,
        Eff.bond "pub1" (trimSpaces ({ cenvBase with setDataIOErr := true } : MEnv).content) 1,
        Eff.send (msgSuccess 1)]) :=
  ⟨rfl, by decide,
    (C7_store_write_failure_logged_only { cenvBase with setDataIOErr := true } []
      ⟨[1], 100⟩ "pub1" "p1" 105 rfl (by decide) (by decide) (by decide) (by decide)
      rfl rfl rfl (by decide) rfl (by decide) rfl rfl (by decide) (by decide)
      (by decide) rfl).1⟩

/-! The per-peer single-claim invariant (C1) -/

/-- Shape of the step conclusion for a branch that leaves the store
untouched. -/
lemma step_left_aux (store : Store) (tr : List Eff) (P : String)
    (h0 : countInserts P tr = 0) :
    (countInserts P tr = 0 ∧ storeLookup store P = storeLookup store P) ∨
    (countInserts P tr = 1 ∧ storeLookup store P = none ∧
      (storeLookup store P).isSome = true) :=
  Or.inl ⟨h0, rfl⟩

/-- One handled message either leaves the store untouched at P and
performs no insert for P, or performs exactly one insert for P starting
from a store with no record for P and ending with one. -/
lemma messageHandler_step (env : MEnv) (store s2 : Store) (effs : List Eff) (P : String)
    (h : messageHandler env store = some (s2, effs)) :
    (countInserts P effs = 0 ∧ storeLookup s2 P = storeLookup store P) ∨
    (countInserts P effs = 1 ∧ storeLookup store P = none ∧
      (storeLookup s2 P).isSome = true) := by
  rw [messageHandler] at h
  split at h
  · rw [Option.some.injEq, Prod.mk.injEq] at h
    obtain ⟨h1, h2⟩ := h
    subst h1
    subst h2
    exact step_left_aux store _ P (by simp [countInserts])
  split at h
  · rw [Option.some.injEq, Prod.mk.injEq] at h
    obtain ⟨h1, h2⟩ := h
    subst h1
    subst h2
    exact step_left_aux store _ P (by simp [countInserts, isInsertEff])
  split at h
  · rw [Option.some.injEq, Prod.mk.injEq] at h
    obtain ⟨h1, h2⟩ := h
    subst h1
    subst h2
    exact step_left_aux store _ P (by simp [countInserts, isInsertEff])
  split at h
  · rw [Option.some.injEq, Prod.mk.injEq] at h
    obtain ⟨h1, h2⟩ := h
    subst h1
    subst h2
    exact step_left_aux store _ P (by simp [countInserts, isInsertEff])
  split at h
  · rw [Option.some.injEq, Prod.mk.injEq] at h
    obtain ⟨h1, h2⟩ := h
    subst h1
    subst h2
    exact step_left_aux store _ P (by simp [countInserts, isInsertEff])
  rcases hVI : validateInfo (trimSpaces env.content) env.venv (SafeStore.GetData store)
    with ⟨ret, vEffs⟩
  simp only [hVI] at h
  have h0 : countInserts P vEffs = 0 := by
    have hni := validateInfo_no_insert (trimSpaces env.content) env.venv
      (SafeStore.GetData store) P
    rw [hVI] at hni
    simpa using hni
  cases ret with
  | none => simp at h
  | some quad =>
    obtain ⟨peerID, pubKey, isValid, msg⟩ := quad
    simp only [] at h
    by_cases hval : isValid = false
    · rw [if_pos hval] at h
      rw [Option.some.injEq, Prod.mk.injEq] at h
      obtain ⟨h1, h2⟩ := h
      subst h1
      subst h2
      exact step_left_aux store _ P
        (by rw [countInserts_append, h0]; simp [countInserts, isInsertEff])
    · rw [if_neg hval] at h
      by_cases hpk : pubKey ≠ ""
      · rw [if_pos hpk] at h
        by_cases hbal : env.balanceAvailable < env.faucetAmount
        · rw [if_pos hbal] at h
          rw [Option.some.injEq, Prod.mk.injEq] at h
          obtain ⟨h1, h2⟩ := h
          subst h1
          subst h2
          exact step_left_aux store _ P
            (by rw [countInserts_append, h0]; simp [countInserts, isInsertEff])
        · rw [if_neg hbal] at h
          by_cases htx : env.bondTxHash ≠ ""
          · rw [if_pos htx] at h
            rcases hSD : SafeStore.SetData store peerID (trimSpaces env.content)
                env.authorUsername env.authorID env.faucetAmount env.setDataIOErr
              with u | store2
            · simp only [hSD] at h
              rw [Option.some.injEq, Prod.mk.injEq] at h
              obtain ⟨h1, h2⟩ := h
              subst h1
              subst h2
              exact step_left_aux store _ P
                (by rw [countInserts_append, h0]; simp [countInserts, isInsertEff])
            · simp only [hSD] at h
              rw [SafeStore.SetData] at hSD
              by_cases hg1 : (storeLookup store peerID).isSome = true
              · rw [if_pos hg1] at hSD
                simp at hSD
              · rw [if_neg hg1] at hSD
                have hnone : storeLookup store peerID = none := by
                  cases hvv : storeLookup store peerID with
                  | none => rfl
                  | some r => exact absurd (by rw [hvv]; rfl) hg1
                by_cases hio : env.setDataIOErr = true
                · rw [if_pos hio] at hSD
                  simp at hSD
                · rw [if_neg hio] at hSD
                  rw [Except.ok.injEq] at hSD
                  subst hSD
                  rw [Option.some.injEq, Prod.mk.injEq] at h
                  obtain ⟨h1, h2⟩ := h
                  subst h1
                  subst h2
                  by_cases hPp : peerID = P
                  · subst hPp
                    right
                    refine ⟨?_, hnone, ?_⟩
                    · rw [countInserts_append, h0]
                      simp [countInserts, isInsertEff]
                    · simp [storeLookup]
                  · left
                    refine ⟨?_, ?_⟩
                    · rw [countInserts_append, h0]
                      simp [countInserts, isInsertEff, hPp]
                    · simp [storeLookup, hPp]
          · rw [if_neg htx] at h
            rw [Option.some.injEq, Prod.mk.injEq] at h
            obtain ⟨h1, h2⟩ := h
            subst h1
            subst h2
            exact step_left_aux store _ P
              (by rw [countInserts_append, h0]; simp [countInserts, isInsertEff])
      · rw [if_neg hpk] at h
        rw [Option.some.injEq, Prod.mk.injEq] at h
        obtain ⟨h1, h2⟩ := h
        subst h1
        subst h2
        exact step_left_aux store _ P h0

/-- Once the store holds a record for P, a sequential run never inserts
for P again. -/
lemma run_no_insert (P : String) :
    ∀ (envs : List MEnv) (store : Store),
      (storeLookup store P).isSome = true →
      countInserts P (run store envs).2 = 0 := by
  intro envs
  induction envs with
  | nil =>
    intro store h
    simp [run, countInserts]
  | cons env rest ih =>
    intro store h
    rw [run]
    cases hmh : messageHandler env store with
    | none => simp [countInserts]
    | some pr =>
      obtain ⟨s2, effs⟩ := pr
      rcases messageHandler_step env store s2 effs P hmh with ⟨h0, hkeep⟩ | ⟨_, hnone, _⟩
      · simp only []
        rw [countInserts_append, h0]
        have hs2 : (storeLookup s2 P).isSome = true := by
          rw [hkeep]
          exact h
        simpa using ih s2 hs2
      · rw [hnone] at h
        simp at h

/-- C1: over any sequential run from any initial store, at most one
ClaimRecord is ever inserted for any peer identity P; and once the store
holds a record for P, every eligibility check resolving to P is rejected
with isValid false and the AlreadyClaimed message, never re-authorized. -/
theorem C1_at_most_one_claim_per_peer :
    (∀ (store : Store) (envs : List MEnv) (P : String),
      countInserts P (run store envs).2 ≤ 1) ∧
    (∀ (address : String) (env : VEnv) (store : Store) (pi : PeerInfo)
        (pubS pid : String) (r : ClaimRecord),
      env.addrParseOk = true → env.clientOk = true →
      env.peerRes = Except.ok (pi, some pubS) →
      env.idFromBytes = some pid → pid ≠ "" →
      storeLookup store pid = some r →
      (validateInfo address env (SafeStore.GetData store)).1 =
        some ("", "", false, msgAlreadyClaimed r.ValidatorAddress)) := by
  constructor
  · intro store envs P
    induction envs generalizing store with
    | nil => simp [run, countInserts]
    | cons env rest ih =>
      rw [run]
      cases hmh : messageHandler env store with
      | none => simp [countInserts]
      | some pr =>
        obtain ⟨s2, effs⟩ := pr
        rcases messageHandler_step env store s2 effs P hmh with ⟨h0, _⟩ | ⟨h1c, _, hsome⟩
        · simp only []
          rw [countInserts_append, h0]
          simpa using ih s2
        · simp only []
          rw [countInserts_append, h1c, run_no_insert P rest s2 hsome]
  · intro address env store pi pubS pid r hA hC hP hI hpid hS
    have hgd : SafeStore.GetData store pid = (some r, true) := by
      simp [SafeStore.GetData, hS]
    rw [validateInfo_alreadyClaimed address env (SafeStore.GetData store)
      pi pubS pid r true hA hC hP hI hpid hgd]

/-- Witness for C1: a two-message run (a successful claim followed by a
repeat attempt from a different submitted address) inserts exactly once
for p1, and the repeated check against the populated store is rejected
with the stored validator address echoed. -/
theorem C1_at_most_one_claim_per_peer_witness :
    countInserts "p1" (run [] [cenvBase, { cenvBase with content := "tpc1other" }]).2 ≤ 1 ∧
    (venvOk.addrParseOk = true ∧ venvOk.clientOk = true ∧
      venvOk.peerRes = Except.ok (⟨[1], 100⟩, some "pub1") ∧
      venvOk.idFromBytes = some "p1" ∧ ("p1" : String) ≠ "" ∧
      storeLookup [("p1", recOld)] "p1" = some recOld ∧
      (validateInfo "tpc1other" venvOk (SafeStore.GetData [("p1", recOld)])).1 =
        some ("", "", false, msgAlreadyClaimed recOld.ValidatorAddress)) :=
  ⟨C1_at_most_one_claim_per_peer.1 [] [cenvBase, { cenvBase with content := "tpc1other" }] "p1",
   rfl, rfl, rfl, rfl, by decide, by decide,
   C1_at_most_one_claim_per_peer.2 "tpc1other" venvOk [("p1", recOld)]
     ⟨[1], 100⟩ "pub1" "p1" recOld rfl rfl rfl rfl (by decide) (by decide)⟩

end RoboPac
